import Mathlib

/-!
Verification development for the pytest-runner core: a shallow embedding of
the test-entity parser (`src/parser.ts`), the position resolver and command
builder (`src/pytestRunner.ts`), the string utilities (`src/util.ts`) and the
environment resolver (`src/pytestRunnerConfig.ts`), together with theorems
settling the behavioural claims about them.

Strings are modelled as Lean `String` / `List Char`; JavaScript truthiness of
a string is the test against the empty string, of an optional number the test
against `none` and `0`.  File-system reads and subprocess results appear as
explicit parameters (a file either yields its content or `none`, a directory
either holds a poetry manifest or not), so every definition is executable.
-/

namespace Pytest

/-- JS `a || b` on strings: an empty (or absent, merged into empty) string is
falsy and selects the right operand.  Mirrors `element.fullName || element.name`. -/
def jsOrStr (a b : String) : String := if a = "" then b else a

/-- JS `a || b` where `a` is an optional string (`undefined`/`null`/empty falsy). -/
def jsOrOptStr (a : Option String) (b : String) : String :=
  match a with
  | some s => if s = "" then b else s
  | none => b

/-- JS `test.line || 1`: a missing or zero line number falls back to 1
(`processTestNodes`, parser.ts line 123). -/
def jsLine (l : Option Nat) : Nat :=
  match l with
  | some n => if n = 0 then 1 else n
  | none => 1

/-- JS `test.class || null`: the empty string is falsy and becomes `null`. -/
def jsClsOpt (c : Option String) : Option String :=
  match c with
  | some s => if s = "" then none else some s
  | none => none

/-- The three quote characters recognized by `QUOTES` in util.ts
(double quote 34, single quote 39, backtick 96). -/
def isQuoteChar (c : Char) : Bool :=
  c.toNat == 34 || c.toNat == 39 || c.toNat == 96

/-- `unquote` from util.ts on a character list: strip the first character when
it is a quote, then strip the (new) last character when it is a quote.  The
two checks are sequential, exactly as the two `if` statements in the source. -/
def unquoteChars (s : List Char) : List Char :=
  let s1 := match s with
    | [] => []
    | c :: rest => if isQuoteChar c then rest else c :: rest
  match s1.getLast? with
  | some c => if isQuoteChar c then s1.dropLast else s1
  | none => s1

/-- `unquote` from util.ts. -/
def unquote (s : String) : String := String.mk (unquoteChars s.data)

/-- A test-entity node as produced by parser.ts (`PythonTestNode`): fields
`name`, `line`, `type`, `class`, `fullName`, `parametrized`, `async`,
`fixtures`, optional `endLine` (read by `findFullTestName` though no parser
path sets it) and `children`.  Absent optional fields are modelled as
`[]` / `none`. -/
inductive PyNode : Type where
  | mk (name : String) (line : Nat) (typ : String) (cls : Option String)
       (fullName : String) (parametrized : Bool) (isAsync : Bool)
       (fixtures : List String) (endLine : Option Nat)
       (children : List PyNode) : PyNode
deriving Repr

def PyNode.name : PyNode → String
  | .mk n _ _ _ _ _ _ _ _ _ => n

def PyNode.line : PyNode → Nat
  | .mk _ l _ _ _ _ _ _ _ _ => l

def PyNode.typ : PyNode → String
  | .mk _ _ t _ _ _ _ _ _ _ => t

def PyNode.cls : PyNode → Option String
  | .mk _ _ _ c _ _ _ _ _ _ => c

def PyNode.fullName : PyNode → String
  | .mk _ _ _ _ f _ _ _ _ _ => f

def PyNode.endLine : PyNode → Option Nat
  | .mk _ _ _ _ _ _ _ _ e _ => e

def PyNode.children : PyNode → List PyNode
  | .mk _ _ _ _ _ _ _ _ _ cs => cs

/-- The per-element test of `findFullTestName`s first loop (util.ts lines
39-45): an exact hit on `element.line`, or, when `element.endLine` is present
and nonzero (JS truthy), containment in `[line, endLine]`. -/
def matchesLine (selectedLine : Nat) (n : PyNode) : Bool :=
  selectedLine == n.line ||
    (match n.endLine with
     | some e => (e != 0) && (decide (n.line ≤ selectedLine)) && (decide (selectedLine ≤ e))
     | none => false)

/-- First loop of `findFullTestName`: scan the sibling list in order and
return `element.fullName || element.name` of the first line match. -/
def findFirstMatch (selectedLine : Nat) (ns : List PyNode) : Option String :=
  match ns.find? (matchesLine selectedLine) with
  | some n => some (jsOrStr n.fullName n.name)
  | none => none

/-- JS truthiness of the recursive result in `findFullTestName`
(`if (result) return result`): `undefined` and the empty string are falsy. -/
def jsTruthyStr (r : Option String) : Bool :=
  match r with
  | some s => s != ""
  | none => false

/-- Second loop of `findFullTestName` (util.ts lines 48-55): for each element
recurse into its children (running both loops there) and return the first
truthy result. -/
def findChildren (selectedLine : Nat) : List PyNode → Option String
  | [] => none
  | PyNode.mk _ _ _ _ _ _ _ _ _ cs :: rest =>
    let r := match findFirstMatch selectedLine cs with
      | some s => some s
      | none => findChildren selectedLine cs
    if jsTruthyStr r then r else findChildren selectedLine rest
termination_by ns => sizeOf ns

/-- `findFullTestName` from util.ts: the current level is scanned for a line
match first; only when no sibling matches are children recursed into. -/
def findFullTestName (selectedLine : Nat) (ns : List PyNode) : Option String :=
  match findFirstMatch selectedLine ns with
  | some s => some s
  | none => findChildren selectedLine ns

/-- `PytestRunner.findCurrentTestName` (pytestRunner.ts lines 346-359): a
non-empty selection (modelled as `some selectedText`) short-circuits to
`unquote` of the selected text; otherwise the parsed tree is searched with
`findFullTestName` at the 1-based cursor line. -/
def findCurrentTestName (selectedText : Option String) (cursorLine : Nat)
    (tree : List PyNode) : Option String :=
  match selectedText with
  | some s => some (unquote s)
  | none => findFullTestName cursorLine tree

/-! ## String utilities of util.ts used by the command builder -/

/-- The single-quote character (code 39). -/
def sq : String := String.singleton (Char.ofNat 39)

/-- The double-quote character (code 34). -/
def dq : String := String.singleton (Char.ofNat 34)

/-- `quote` from util.ts: wrap in double quotes on Windows, single quotes
elsewhere.  The platform is an explicit parameter. -/
def quoteS (win : Bool) (s : String) : String :=
  let q := if win then dq else sq
  q ++ s ++ q

/-- `normalizePath` from util.ts: on Windows replace every backslash (92) by a
forward slash (47); elsewhere the identity. -/
def normalizePathS (win : Bool) (p : String) : String :=
  if win then String.mk (p.data.map (fun c => if c.toNat == 92 then Char.ofNat 47 else c))
  else p

/-- Substring test on character lists (JS `String.prototype.includes`). -/
def hasSubstrL (pat : List Char) : List Char → Bool
  | [] => pat == []
  | c :: rest => List.isPrefixOf pat (c :: rest) || hasSubstrL pat rest

/-- JS `s.includes(pat)`. -/
def hasSubstrS (pat s : String) : Bool := hasSubstrL pat.data s.data

/-- JS `String.prototype.replace` with a string pattern: replace only the
first (leftmost) occurrence; leave the string unchanged when the pattern does
not occur. -/
def replaceFirstL (pat repl : List Char) : List Char → List Char
  | [] => []
  | c :: rest =>
    if List.isPrefixOf pat (c :: rest) then repl ++ List.drop pat.length (c :: rest)
    else c :: replaceFirstL pat repl rest

/-- JS `s.replace(pat, repl)` (first occurrence only). -/
def replaceFirstS (s pat repl : String) : String :=
  String.mk (replaceFirstL pat.data repl.data s.data)

/-- Iteration order of `new Set(options)`: first occurrences, in order
(pytestRunner.ts lines 398-401). -/
def dedupFirst (l : List String) : List String :=
  l.foldl (fun acc s => if acc.contains s then acc else acc ++ [s]) []

/-- JS `array.join(sep)` with a single-space separator. -/
def joinSpace : List String → String
  | [] => ""
  | [a] => a
  | a :: b :: rest => a ++ " " ++ joinSpace (b :: rest)

/-! ## Configuration and command building
(`PytestRunnerConfig`, `PytestRunner.buildPytestArgs` / `buildPytestCommand`)
-/

/-- The slice of `PytestRunnerConfig` consumed by command building.
`pytestPath`, `usePoetry` and `pytestArgs` are the configuration getters;
`poetryProject` is the result of `detectPoetryProject()` (a file-system
probe); `configPathFor` is the result of `getPytestConfigPath` for a given
file (the empty string when no config file is found, as in
`findPytestConfigPath`). -/
structure RunnerConfig where
  pytestPath : String
  usePoetry : Bool
  poetryProject : Bool
  pytestArgs : List String
  configPathFor : String → String

/-- The base executable chosen by `PytestRunnerConfig.pytestCommand`
(pytestRunnerConfig.ts line 19). -/
def pytestBase (cfg : RunnerConfig) : String :=
  if cfg.usePoetry && cfg.poetryProject then "poetry run pytest" else cfg.pytestPath

/-- `PytestRunnerConfig.pytestCommand` (pytestRunnerConfig.ts lines 18-22):
the base executable followed, when the joined `pytestArgs` string is truthy
(non-empty), by a space and that string. -/
def pytestCommandStr (cfg : RunnerConfig) : String :=
  let argsStr := joinSpace cfg.pytestArgs
  pytestBase cfg ++ (if argsStr = "" then "" else " " ++ argsStr)

/-- The quoting function chosen by `buildPytestArgs` (`withQuotes ? quote : id`). -/
def quoterOf (win withQuotes : Bool) (s : String) : String :=
  if withQuotes then quoteS win s else s

/-- The `-k` selection arguments pushed by `buildPytestArgs` when a test name
is present and truthy (pytestRunner.ts lines 374-383): a name containing the
`::` separator has its first occurrence replaced by the `and` keyword. -/
def nameSelectionArgs (win withQuotes : Bool) (testName : Option String) : List String :=
  match testName with
  | some tn =>
    if tn = "" then []
    else if hasSubstrS "::" tn then ["-k", quoterOf win withQuotes (replaceFirstS tn "::" " and ")]
    else ["-k", quoterOf win withQuotes tn]
  | none => []

/-- The trailing arguments pushed by `buildPytestArgs` after the `-k`
selection (pytestRunner.ts lines 385-401): the discovered config file (when
truthy) behind `-c`, then the configured `pytestArgs` when non-empty, then
the deduplicated one-off options. -/
def argsTail (win : Bool) (cfg : RunnerConfig) (filePath : String)
    (withQuotes : Bool) (options : List String) : List String :=
  (let cp := cfg.configPathFor filePath
   if cp = "" then [] else ["-c", quoterOf win withQuotes (normalizePathS win cp)]) ++
  (if cfg.pytestArgs.isEmpty then [] else cfg.pytestArgs) ++
  (if options.isEmpty then [] else dedupFirst options)

/-- `PytestRunner.buildPytestArgs` (pytestRunner.ts lines 366-404): the
normalized, quoted file path, then the `-k` selection, then the config-file,
default-argument and one-off-option pushes. -/
def buildPytestArgs (win : Bool) (cfg : RunnerConfig) (filePath : String)
    (testName : Option String) (withQuotes : Bool) (options : List String) : List String :=
  [quoterOf win withQuotes (normalizePathS win filePath)] ++
  nameSelectionArgs win withQuotes testName ++
  argsTail win cfg filePath withQuotes options

/-- `PytestRunner.buildPytestCommand` (pytestRunner.ts lines 361-364):
`pytestCommand` (which itself already carries the configured default
arguments) followed by the space-joined argument list. -/
def buildPytestCommand (win : Bool) (cfg : RunnerConfig) (filePath : String)
    (testName : Option String) (options : List String) : String :=
  pytestCommandStr cfg ++ " " ++ joinSpace (buildPytestArgs win cfg filePath testName true options)

/-- Modelled from the spec (§4.6 and §8), for comparison with
`buildPytestCommand`: the command a bare function selector is claimed to
produce, with the default arguments appearing exactly once, after the `-k`
expression. -/
def specCommandForBareSelector (win : Bool) (cfg : RunnerConfig)
    (filePath : String) (testName : String) : String :=
  let argsStr := joinSpace cfg.pytestArgs
  pytestBase cfg ++ " " ++ quoteS win (normalizePathS win filePath) ++
    " -k " ++ quoteS win testName ++ (if argsStr = "" then "" else " " ++ argsStr)

/-! ## Parse coordinator (`PythonTestParser`, parser.ts) -/

/-- A raw test entry as delivered by the AST subprocess JSON
(`{ name, line, type, class, full_name, parametrized, async, fixtures }`);
every field but `name` is optional (missing boolean fields are already their
falsy default). -/
structure RawTest where
  name : String
  line : Option Nat
  typ : Option String
  cls : Option String
  fullName : Option String
  parametrized : Bool
  isAsync : Bool
  fixtures : List String

/-- First-pass node conversion in `processTestNodes` (parser.ts lines
120-130): defaulted line, type, class, full name, flags and fixtures. -/
def rawToNode (t : RawTest) : PyNode :=
  PyNode.mk t.name (jsLine t.line) (jsOrOptStr t.typ "function") (jsClsOpt t.cls)
    (jsOrOptStr t.fullName t.name) t.parametrized t.isAsync t.fixtures none []

/-- `testsByClass.get(cls).push(node)` with JS `Map` insertion order: append
the node to an existing group, or append a fresh group at the end. -/
def addToGroups (key : String) (n : PyNode) :
    List (String × List PyNode) → List (String × List PyNode)
  | [] => [(key, [n])]
  | (k, ms) :: rest =>
    if k = key then (k, ms ++ [n]) :: rest else (k, ms) :: addToGroups key n rest

/-- One loop body of the first pass of `processTestNodes` (parser.ts lines
119-140): a classless node is pushed to the processed list, a class-owning
node is grouped under its class name. -/
def firstPassStep (acc : List PyNode × List (String × List PyNode)) (t : RawTest) :
    List PyNode × List (String × List PyNode) :=
  let node := rawToNode t
  match node.cls with
  | some c => (acc.1, addToGroups c node acc.2)
  | none => (acc.1 ++ [node], acc.2)

/-- First pass of `processTestNodes`: fold the loop body over the raw
entries, starting from an empty processed list and an empty class map. -/
def firstPass (tests : List RawTest) : List PyNode × List (String × List PyNode) :=
  tests.foldl firstPassStep ([], [])

/-- Second pass of `processTestNodes` (parser.ts lines 142-161): for each
class group, look for a raw entry with that name and `type === 'class'`; when
found, synthesize a class node carrying the methods as children (no fixtures
field is set), otherwise emit the methods directly. -/
def secondPass (tests : List RawTest) : List (String × List PyNode) → List PyNode
  | [] => []
  | (cn, ms) :: rest =>
    (match tests.find? (fun t => t.name == cn && t.typ == some "class") with
     | some classRaw =>
       [PyNode.mk cn (jsLine classRaw.line) "class" none cn false false [] none ms]
     | none => ms) ++ secondPass tests rest

/-- Stable insertion of a node into a line-sorted list: the node passes over
every element whose line is not greater, matching the stable ascending
`sort((a, b) => a.line - b.line)`. -/
def insertByLine (n : PyNode) : List PyNode → List PyNode
  | [] => [n]
  | m :: rest => if n.line ≤ m.line then n :: m :: rest else m :: insertByLine n rest

/-- Stable sort by ascending `line`, modelling the final
`processedTests.sort((a, b) => a.line - b.line)` (parser.ts line 163). -/
def sortByLine : List PyNode → List PyNode
  | [] => []
  | n :: rest => insertByLine n (sortByLine rest)

/-- `PythonTestParser.processTestNodes` (parser.ts lines 115-164): group, then
attach class nodes, then sort the (single, top-level) list by line. -/
def processTestNodes (tests : List RawTest) : List PyNode :=
  let fp := firstPass tests
  sortByLine (fp.1 ++ secondPass tests fp.2)

/-- `PythonTestParser.parsePythonFile` (parser.ts lines 86-110): the
subprocess either succeeds with a raw entry list (`success: true` and a
well-formed array) or fails in any way; failure yields the empty list.  The
subprocess outcome is an explicit parameter. -/
def parsePythonFile (raw : Option (List RawTest)) : List PyNode :=
  match raw with
  | some ts => processTestNodes ts
  | none => []

/-! ### Pattern (regex) fallback parser (`parseWithRegex`, parser.ts 169-228) -/

/-- The whitespace characters stripped by `trim` and matched by the regex
class backslash-s, for ASCII content: tab 9, LF 10, VT 11, FF 12, CR 13,
space 32. -/
def isSpaceChar (c : Char) : Bool :=
  c.toNat == 9 || c.toNat == 10 || c.toNat == 11 || c.toNat == 12 ||
    c.toNat == 13 || c.toNat == 32

/-- The regex word class (backslash-w): ASCII letters, digits, underscore. -/
def isWordChar (c : Char) : Bool :=
  (c.toNat ≥ 65 && c.toNat ≤ 90) || (c.toNat ≥ 97 && c.toNat ≤ 122) ||
    (c.toNat ≥ 48 && c.toNat ≤ 57) || c.toNat == 95

/-- `line.trim()` on a character list. -/
def trimChars (s : List Char) : List Char :=
  ((s.dropWhile isSpaceChar).reverse.dropWhile isSpaceChar).reverse

/-- Consume an exact literal. -/
def dropLit (pat s : List Char) : Option (List Char) :=
  if List.isPrefixOf pat s then some (List.drop pat.length s) else none

/-- Consume one-or-more whitespace characters (regex backslash-s plus). -/
def dropSpaces1 : List Char → Option (List Char)
  | [] => none
  | c :: rest => if isSpaceChar c then some ((c :: rest).dropWhile isSpaceChar) else none

/-- After the captured name, the regexes allow optional whitespace and then
require an opening parenthesis 40 (and for classes alternatively a colon 58). -/
def tailOpens (allowColon : Bool) (s : List Char) : Bool :=
  match s.dropWhile isSpaceChar with
  | c :: _ => c.toNat == 40 || (allowColon && c.toNat == 58)
  | [] => false

/-- Capture `<pre><w*>` where `pre` is the fixed name start mandated by the
regex, returning the captured name and the rest. -/
def captureName (pre : List Char) (s : List Char) : Option (String × List Char) :=
  match dropLit pre s with
  | some r =>
    some (String.mk (pre ++ r.takeWhile isWordChar), r.dropWhile isWordChar)
  | none => none

/-- Regex `^def\s+(test_\w*)\s*\(` on a trimmed line. -/
def matchFuncDef (s : List Char) : Option String :=
  match dropLit "def".data s with
  | none => none
  | some r1 =>
    match dropSpaces1 r1 with
    | none => none
    | some r2 =>
      match captureName "test_".data r2 with
      | some (nm, r3) => if tailOpens false r3 then some nm else none
      | none => none

/-- Regex `^class\s+(Test\w*)\s*[(:]` on a trimmed line. -/
def matchClassDef (s : List Char) : Option String :=
  match dropLit "class".data s with
  | none => none
  | some r1 =>
    match dropSpaces1 r1 with
    | none => none
    | some r2 =>
      match captureName "Test".data r2 with
      | some (nm, r3) => if tailOpens true r3 then some nm else none
      | none => none

/-- Regex `^async\s+def\s+(test_\w*)\s*\(` on a trimmed line. -/
def matchAsyncDef (s : List Char) : Option String :=
  match dropLit "async".data s with
  | none => none
  | some r1 =>
    match dropSpaces1 r1 with
    | none => none
    | some r2 =>
      match dropLit "def".data r2 with
      | none => none
      | some r3 =>
        match dropSpaces1 r3 with
        | none => none
        | some r4 =>
          match captureName "test_".data r4 with
          | some (nm, r5) => if tailOpens false r5 then some nm else none
          | none => none

/-- One loop iteration of `parseWithRegex` for the line with 0-based index
`i`: try the function pattern, then the class pattern, then the async
pattern, building the node of parser.ts lines 182-220 with the 1-based line
number `i + 1`. -/
def matchLineNode (i : Nat) (rawLine : String) : Option PyNode :=
  let t := trimChars rawLine.data
  match matchFuncDef t with
  | some nm => some (PyNode.mk nm (i + 1) "function" none nm false false [] none [])
  | none =>
    match matchClassDef t with
    | some nm => some (PyNode.mk nm (i + 1) "class" none nm false false [] none [])
    | none =>
      match matchAsyncDef t with
      | some nm => some (PyNode.mk nm (i + 1) "function" none nm false true [] none [])
      | none => none

/-- The scanning loop of `parseWithRegex` (parser.ts lines 175-222). -/
def parseRegexLoop (i : Nat) : List String → List PyNode
  | [] => []
  | l :: rest =>
    match matchLineNode i l with
    | some n => n :: parseRegexLoop (i + 1) rest
    | none => parseRegexLoop (i + 1) rest

/-- JS `content.split(newline)` on a character list: every segment is kept,
including empty leading/trailing ones. -/
def splitLinesChars : List Char → List (List Char)
  | [] => [[]]
  | c :: rest =>
    match splitLinesChars rest, c.toNat == 10 with
    | segs, true => [] :: segs
    | [], false => [[c]]
    | seg :: segs, false => (c :: seg) :: segs

/-- JS `content.split(newline)`. -/
def splitLines (s : String) : List String := (splitLinesChars s.data).map String.mk

/-- `PythonTestParser.parseWithRegex` (parser.ts lines 169-228): the file
content is an explicit parameter; an unreadable file (`none`, the thrown
`readFileSync` error caught at line 225) yields the empty list. -/
def parseWithRegex (content : Option String) : List PyNode :=
  match content with
  | none => []
  | some c => parseRegexLoop 0 (splitLines c)

/-- `PytestRunnerConfig`-independent test-file naming heuristic
(`isTestFile` in parser.ts lines 74-81 over the base file name). -/
def isTestFileName (fileName : String) : Bool :=
  List.isSuffixOf ".py".data fileName.data &&
    (List.isPrefixOf "test_".data fileName.data ||
      List.isSuffixOf "_test.py".data fileName.data ||
      hasSubstrS "test" fileName)

/-- `PythonTestParser.parseTestFile` (parser.ts lines 46-69): a missing file
or a non-test file name yields the empty list; otherwise the AST subprocess
result is used when it yields at least one entity, and the regex fallback
otherwise (also on any thrown error, caught at line 65). -/
def parseTestFile (fileExists : Bool) (fileName : String)
    (raw : Option (List RawTest)) (content : Option String) : List PyNode :=
  if !fileExists then []
  else if !isTestFileName fileName then []
  else
    let r := parsePythonFile raw
    if r.length > 0 then r else parseWithRegex content

/-- The module-level `parse` entry point (parser.ts lines 237-240)
instrumented with an invocation counter for the underlying
`PythonTestParser.parseTestFile`: `parse` constructs a fresh
`PythonTestParser` and calls it unconditionally — no cache keyed by file path
or content fingerprint exists anywhere in the module — so every call
increments the counter. -/
def parseCounted (fileExists : Bool) (fileName : String)
    (raw : Option (List RawTest)) (content : Option String)
    (parserCalls : Nat) : List PyNode × Nat :=
  (parseTestFile fileExists fileName raw content, parserCalls + 1)

/-! ## Environment resolver
(`searchPathToParent`, util.ts lines 157-183, and
`PytestRunnerConfig.getPoetryProjectRoot`, pytestRunnerConfig.ts 123-159)

Directories are modelled as lists of path components from the root, so
`path.dirname` is `dropLast` and the resolved-prefix test is component-list
prefixing.  The call sites pass directories, so the `statSync` branch
selecting the directory itself is the identity here, and `normalizePath` on
the result is the identity in the component model. -/

/-- `path.dirname` on a component list. -/
def dirnameP (p : List String) : List String := p.dropLast

/-- The do-while loop of `searchPathToParent`: invoke the callback on the
current directory first, return its result when truthy, then step to the
parent while it differs from both `endPath` and the previous directory. -/
def walkUp (check : List String → Bool) (current endP : List String) :
    Option (List String) :=
  if check current then some current
  else if _h : current.dropLast = endP ∨ current.dropLast = current then none
  else walkUp check current.dropLast endP
termination_by current.length
decreasing_by
  have hne : current ≠ [] := by
    intro hc
    subst hc
    exact _h (Or.inr rfl)
  have : current.length ≠ 0 := fun h0 => hne (List.eq_nil_of_length_eq_zero h0)
  simp [List.length_dropLast]
  omega

/-- `searchPathToParent` from util.ts: stop immediately (returning the falsy
`false`, modelled `none`) when the starting directory is not under
`dirname(ancestorPath)`, otherwise run the upward walk. -/
def searchPathToParent (check : List String → Bool)
    (startingPath ancestorPath : List String) : Option (List String) :=
  if List.isPrefixOf (dirnameP ancestorPath) startingPath then
    walkUp check startingPath (dirnameP ancestorPath)
  else none

/-- `PytestRunnerConfig.getPoetryProjectRoot`: the per-directory probe
`checkPoetryProject` (does `pyproject.toml` exist there, is it readable, and
does it contain the `[tool.poetry]` marker) is abstracted as the boolean
`hasPoetryManifest`.  The workspace root is checked first (pytestRunnerConfig.ts
line 146); only when it does not match is the walk from the active file
directory run. -/
def getPoetryProjectRoot (hasPoetryManifest : List String → Bool)
    (startDir wsRoot : List String) : Option (List String) :=
  if hasPoetryManifest wsRoot then some wsRoot
  else searchPathToParent hasPoetryManifest startDir wsRoot

/-! ## Sortedness of sibling groups (for the sorting claim) -/

/-- Adjacent lines are non-decreasing. -/
def sortedByLine : List PyNode → Bool
  | [] => true
  | [_] => true
  | a :: b :: rest => decide (a.line ≤ b.line) && sortedByLine (b :: rest)

/-- The claim-level property: the top-level entity list and each top-level
node's children list are sorted by ascending line. -/
def topAndChildrenSorted (ns : List PyNode) : Bool :=
  sortedByLine ns && ns.all (fun n => sortedByLine n.children)

/-! ## Concrete instances used by counterexamples and witnesses -/

/-- A method node spanning lines 3-5 with a pytest-style qualified name. -/
def exMethod : PyNode :=
  PyNode.mk "test_divide" 3 "method" none "TestCalc::test_divide" false false [] (some 5) []

/-- A class node whose recorded span (lines 1-10) covers its method. -/
def exClassRanged : PyNode :=
  PyNode.mk "TestCalc" 1 "class" none "TestCalc" false false [] (some 10) [exMethod]

/-- The same class node without a recorded end line (as every parser path of
this code base produces it). -/
def exClassNoEnd : PyNode :=
  PyNode.mk "TestCalc" 1 "class" none "TestCalc" false false [] none [exMethod]

/-- A configuration with the shipped defaults: plain `pytest`, poetry not in
play, the default `-v` argument, and no discoverable pytest config file. -/
def exCfg : RunnerConfig := ⟨"pytest", false, false, ["-v"], fun _ => ""⟩

/-- Raw AST entries delivered out of line order: two methods of `TestC`
(lines 10 and 5, in that order) and the class itself (line 1). -/
def exRawMethodB : RawTest :=
  ⟨"test_b", some 10, some "method", some "TestC", some "TestC::test_b", false, false, []⟩

def exRawMethodA : RawTest :=
  ⟨"test_a", some 5, some "method", some "TestC", some "TestC::test_a", false, false, []⟩

def exRawClass : RawTest :=
  ⟨"TestC", some 1, some "class", none, some "TestC", false, false, []⟩

/-- Two flat function entries (no enclosing class), out of order. -/
def exRawFunB : RawTest :=
  ⟨"test_beta", some 8, some "function", none, some "test_beta", false, false, []⟩

def exRawFunA : RawTest :=
  ⟨"test_alpha", some 2, some "function", none, some "test_alpha", false, false, []⟩

/-- A plain sample test file: a module-level test function (line 3), a test
class (line 5), an indented test method (line 6) and an async test function
(line 7). -/
def exSampleFile : String :=
  "import pytest\n\ndef test_add(x):\n    assert x\nclass TestCalc:\n    def test_divide(self):\nasync def test_async():"

/-- A file-system probe where both the workspace root `ws` and the nested
directory `ws/sub` hold a poetry manifest. -/
def exPoetryBoth : List String → Bool :=
  fun p => p == ["ws"] || p == ["ws", "sub"]

/-- A file-system probe where only the nested directory `a/b` holds a poetry
manifest. -/
def exPoetryNested : List String → Bool :=
  fun p => p == ["a", "b"]

/-! ## Theorems -/

/-- Claim C9: `unquote` strips at most one leading and at most one trailing
quote character independently, without requiring them to match: a leading
quote and a differing trailing quote are both removed, at most one character
is removed from each end, and a one-character quote string becomes empty. -/
theorem unquote_strips_mismatched_quotes :
    (∀ (c1 c2 : Char) (mid : List Char), isQuoteChar c1 = true → isQuoteChar c2 = true →
      unquote (String.mk (c1 :: (mid ++ [c2]))) = String.mk mid) ∧
    (∀ (c1 c4 c2 c3 : Char) (mid : List Char), isQuoteChar c1 = true → isQuoteChar c4 = true →
      unquote (String.mk (c1 :: c2 :: (mid ++ [c3, c4]))) = String.mk (c2 :: (mid ++ [c3]))) ∧
    (∀ c : Char, isQuoteChar c = true → unquote (String.mk [c]) = "") := by
  refine ⟨?_, ?_, ?_⟩
  · intro c1 c2 mid h1 h2
    simp [unquote, unquoteChars, h1, h2]
  · intro c1 c4 c2 c3 mid h1 h4
    have hsplit : c2 :: (mid ++ [c3, c4]) = (c2 :: (mid ++ [c3])) ++ [c4] := by simp
    rw [unquote, unquoteChars]
    simp only [h1, if_true]
    rw [hsplit]
    simp only [List.getLast?_concat, h4, if_true, List.dropLast_concat]
  · intro c h
    simp [unquote, unquoteChars, h]

/-- Witness for C9 at concrete quotes: a leading single quote (39) and a
trailing double quote (34) around `ab` are both stripped, and a lone single
quote becomes empty. -/
theorem unquote_strips_mismatched_quotes_witness :
    isQuoteChar (Char.ofNat 39) = true ∧ isQuoteChar (Char.ofNat 34) = true ∧
    unquote (String.mk (Char.ofNat 39 :: ([Char.ofNat 97, Char.ofNat 98] ++ [Char.ofNat 34]))) =
      String.mk [Char.ofNat 97, Char.ofNat 98] ∧
    unquote (String.mk [Char.ofNat 39]) = "" :=
  ⟨by decide, by decide,
   unquote_strips_mismatched_quotes.1 _ _ _ (by decide) (by decide),
   unquote_strips_mismatched_quotes.2.2 _ (by decide)⟩

/-- Claim C8: with a non-empty explicit selection, position resolution
returns the unquoted selected text and never consults the tree: the result
is the same for every tree and cursor line. -/
theorem findCurrentTestName_selection_wins :
    ∀ (tree : List PyNode) (cursorLine : Nat) (s : String), s ≠ "" →
      findCurrentTestName (some s) cursorLine tree = some (unquote s) ∧
      (∀ (tree2 : List PyNode) (line2 : Nat),
        findCurrentTestName (some s) cursorLine tree = findCurrentTestName (some s) line2 tree2) :=
  fun _ _ _ _ => ⟨rfl, fun _ _ => rfl⟩

/-- Witness for C8 at the selection `foo` over a non-trivial tree. -/
theorem findCurrentTestName_selection_wins_witness :
    ("foo" : String) ≠ "" ∧
    findCurrentTestName (some "foo") 7 [exClassRanged] = some (unquote "foo") ∧
    findCurrentTestName (some "foo") 7 [exClassRanged] = findCurrentTestName (some "foo") 1 [] :=
  ⟨by decide,
   (findCurrentTestName_selection_wins [exClassRanged] 7 "foo" (by decide)).1,
   (findCurrentTestName_selection_wins [exClassRanged] 7 "foo" (by decide)).2 [] 1⟩

/-- Counterexample to claim C1: cursor line 4 falls strictly inside the
method span (3-5) of `exMethod`, yet resolution returns the enclosing class's
qualified name, because the class's own recorded range (1-10) is tested
before its children are recursed into. -/
theorem findFullTestName_class_range_shadows_method :
    findFullTestName 4 [exClassRanged] = some (jsOrStr exClassRanged.fullName exClassRanged.name) ∧
    findFullTestName 4 [exClassRanged] ≠ some (jsOrStr exMethod.fullName exMethod.name) :=
  ⟨rfl, by decide⟩

/-- Claim C1 as amended: a cursor line inside a method's recorded span
resolves to that method's qualified name only when no entity at an outer
level matches first — in particular when the enclosing class carries no
`endLine` and the cursor line differs from the class's start line. -/
theorem findFullTestName_method_when_parent_unmatched :
    ∀ (c m : PyNode) (L e : Nat),
      c.endLine = none → c.line ≠ L → c.children = [m] →
      m.endLine = some e → e ≠ 0 → m.line ≤ L → L ≤ e →
      jsOrStr m.fullName m.name ≠ "" →
      findFullTestName L [c] = some (jsOrStr m.fullName m.name) := by
  intro c m L e hEnd hLine hCh hmEnd he hml hle hfn
  obtain ⟨nm, ln, ty, cl, fn, pz, az, fx, el, cs⟩ := c
  simp only [PyNode.endLine, PyNode.line, PyNode.children] at hEnd hLine hCh
  subst hEnd hCh
  obtain ⟨nm2, ln2, ty2, cl2, fn2, pz2, az2, fx2, el2, cs2⟩ := m
  simp only [PyNode.endLine, PyNode.line, PyNode.fullName, PyNode.name] at hmEnd hml hfn
  subst hmEnd
  have hmatch : matchesLine L (PyNode.mk nm ln ty cl fn pz az fx none
      [PyNode.mk nm2 ln2 ty2 cl2 fn2 pz2 az2 fx2 (some e) cs2]) = false := by
    simp only [matchesLine, PyNode.line, PyNode.endLine, Bool.or_false]
    simp only [beq_eq_false_iff_ne]
    exact Ne.symm hLine
  have hmmatch : matchesLine L (PyNode.mk nm2 ln2 ty2 cl2 fn2 pz2 az2 fx2 (some e) cs2) = true := by
    simp only [matchesLine, PyNode.line, PyNode.endLine, Bool.or_eq_true, Bool.and_eq_true,
      bne_iff_ne, decide_eq_true_eq]
    exact Or.inr ⟨⟨he, hml⟩, hle⟩
  simp only [findFullTestName, findFirstMatch, List.find?, hmatch, hmmatch]
  rw [findChildren]
  simp only [findFirstMatch, List.find?, hmmatch, jsTruthyStr]
  simp only [PyNode.fullName, PyNode.name] at hfn ⊢
  simp [hfn]

/-- Witness for the amended C1: in the tree whose class node has no recorded
end line, cursor line 4 (inside the method span 3-5) resolves to the method. -/
theorem findFullTestName_method_when_parent_unmatched_witness :
    exClassNoEnd.endLine = none ∧ exClassNoEnd.line ≠ 4 ∧
    exClassNoEnd.children = [exMethod] ∧ exMethod.endLine = some 5 ∧
    (5 : Nat) ≠ 0 ∧ exMethod.line ≤ 4 ∧ 4 ≤ 5 ∧
    jsOrStr exMethod.fullName exMethod.name ≠ "" ∧
    findFullTestName 4 [exClassNoEnd] = some (jsOrStr exMethod.fullName exMethod.name) :=
  ⟨rfl, by decide, rfl, rfl, by decide, by decide, by decide, by decide,
   findFullTestName_method_when_parent_unmatched exClassNoEnd exMethod 4 5
     rfl (by decide) rfl rfl (by decide) (by decide) (by decide) (by decide)⟩

/-- Claim C3 (code bug): the module-level `parse` constructs a fresh parser
and invokes `parseTestFile` unconditionally on every call.  After two calls
with the identical file identity and content, the parser invocation counter
has grown by two — not by one as a cache hit on the second call would give. -/
theorem parse_always_reinvokes :
    ∀ (fileExists : Bool) (fileName : String) (raw : Option (List RawTest))
      (content : Option String) (n : Nat),
      (parseCounted fileExists fileName raw content
        (parseCounted fileExists fileName raw content n).2).2 = n + 2 ∧
      (parseCounted fileExists fileName raw content
        (parseCounted fileExists fileName raw content n).2).2 ≠ n + 1 := by
  intro fileExists fileName raw content n
  refine ⟨rfl, ?_⟩
  show n + 1 + 1 ≠ n + 1
  omega

/-- Counterexample to claim C5: when both the workspace root `ws` and the
nested directory `ws/sub` containing the active file hold a poetry manifest,
the resolver returns the workspace root, not the directory nearest the file. -/
theorem getPoetryProjectRoot_wsRoot_shadows_nearest :
    exPoetryBoth ["ws", "sub"] = true ∧
    getPoetryProjectRoot exPoetryBoth ["ws", "sub"] ["ws"] = some ["ws"] ∧
    getPoetryProjectRoot exPoetryBoth ["ws", "sub"] ["ws"] ≠ some ["ws", "sub"] :=
  ⟨by decide, rfl, by decide⟩

/-- The do-while walk of `searchPathToParent` visits the `j`-fold parents of
the starting directory in order `j = 0, 1, 2, ...` and returns the first
match: if no directory strictly nearer than the `k`-fold parent matches, the
walk has not terminated before reaching it (no earlier step hit
`endPath` or repeated itself), and the `k`-fold parent matches, then the walk
returns the `k`-fold parent. -/
theorem walkUp_first_match :
    ∀ (k : Nat) (check : List String → Bool) (current endP : List String),
      (∀ j, j < k → check (List.dropLast^[j] current) = false) →
      (∀ j, j < k → List.dropLast^[j + 1] current ≠ endP ∧
        List.dropLast^[j + 1] current ≠ List.dropLast^[j] current) →
      check (List.dropLast^[k] current) = true →
      walkUp check current endP = some (List.dropLast^[k] current) := by
  intro k
  induction k with
  | zero =>
    intro check current endP _ _ hk
    rw [Function.iterate_zero_apply] at hk ⊢
    rw [walkUp]
    simp [hk]
  | succ k ih =>
    intro check current endP hmiss hstep hk
    have h0 : check current = false := by
      have h := hmiss 0 (Nat.succ_pos k)
      rwa [Function.iterate_zero_apply] at h
    have hstop : current.dropLast ≠ endP ∧ current.dropLast ≠ current := by
      have h := hstep 0 (Nat.succ_pos k)
      simpa using h
    rw [walkUp, if_neg (by simp [h0]), dif_neg (not_or.mpr ⟨hstop.1, hstop.2⟩)]
    rw [Function.iterate_succ_apply]
    apply ih
    · intro j hj
      rw [← Function.iterate_succ_apply]
      exact hmiss (j + 1) (Nat.succ_lt_succ hj)
    · intro j hj
      rw [← Function.iterate_succ_apply, ← Function.iterate_succ_apply]
      exact hstep (j + 1) (Nat.succ_lt_succ hj)
    · rw [← Function.iterate_succ_apply]
      exact hk

/-- Claim C5 as amended: the workspace root is probed first and wins whenever
it matches; only when it does not match does the resolver walk upward from
the active file's directory toward the workspace root, returning the first
(nearest to the file) matching directory: if no directory strictly nearer
than the `k`-fold parent of the file's directory matches and the `k`-fold
parent (still above the walk's stopping point) does, it is returned. -/
theorem getPoetryProjectRoot_precedence :
    (∀ (hasP : List String → Bool) (startDir wsRoot : List String),
      hasP wsRoot = true → getPoetryProjectRoot hasP startDir wsRoot = some wsRoot) ∧
    (∀ (hasP : List String → Bool) (startDir wsRoot : List String) (k : Nat),
      hasP wsRoot = false → List.isPrefixOf (dirnameP wsRoot) startDir = true →
      (∀ j, j < k → hasP (List.dropLast^[j] startDir) = false) →
      (∀ j, j < k → List.dropLast^[j + 1] startDir ≠ dirnameP wsRoot ∧
        List.dropLast^[j + 1] startDir ≠ List.dropLast^[j] startDir) →
      hasP (List.dropLast^[k] startDir) = true →
      getPoetryProjectRoot hasP startDir wsRoot = some (List.dropLast^[k] startDir)) := by
  constructor
  · intro hasP startDir wsRoot h
    simp [getPoetryProjectRoot, h]
  · intro hasP startDir wsRoot k h1 h2 hmiss hstep hk
    rw [getPoetryProjectRoot, if_neg (by simp [h1]), searchPathToParent, if_pos h2]
    exact walkUp_first_match k hasP startDir (dirnameP wsRoot) hmiss hstep hk

/-- Witness for the amended C5 at an intermediate ancestor: only `a/b` holds
a manifest; starting from `a/b/c` under workspace root `a`, the file's own
directory does not match and the walk returns its parent `a/b` (the 1-fold
parent), the nearest matching directory. -/
theorem getPoetryProjectRoot_precedence_witness :
    exPoetryNested ["a"] = false ∧
    List.isPrefixOf (dirnameP ["a"]) ["a", "b", "c"] = true ∧
    (∀ j, j < 1 → exPoetryNested (List.dropLast^[j] ["a", "b", "c"]) = false) ∧
    (∀ j, j < 1 → List.dropLast^[j + 1] ["a", "b", "c"] ≠ dirnameP ["a"] ∧
      List.dropLast^[j + 1] ["a", "b", "c"] ≠ List.dropLast^[j] ["a", "b", "c"]) ∧
    exPoetryNested (List.dropLast^[1] ["a", "b", "c"]) = true ∧
    getPoetryProjectRoot exPoetryNested ["a", "b", "c"] ["a"] =
      some (List.dropLast^[1] ["a", "b", "c"]) :=
  ⟨by decide, by decide, by decide, by decide, by decide,
   getPoetryProjectRoot_precedence.2 exPoetryNested ["a", "b", "c"] ["a"] 1
     (by decide) (by decide) (by decide) (by decide) (by decide)⟩

/-! ### Sorting lemmas for the coordinator -/

theorem sorted_cons_insert (n : PyNode) :
    ∀ (l : List PyNode) (m : PyNode), sortedByLine (m :: l) = true → m.line ≤ n.line →
      sortedByLine (m :: insertByLine n l) = true := by
  intro l
  induction l with
  | nil =>
    intro m _ hmn
    simp [insertByLine, sortedByLine, hmn]
  | cons p rest ih =>
    intro m h hmn
    simp only [sortedByLine, Bool.and_eq_true, decide_eq_true_eq] at h
    obtain ⟨hmp, hp⟩ := h
    by_cases hnp : n.line ≤ p.line
    · simp [insertByLine, hnp, sortedByLine, hmn, hp]
    · have hpn : p.line ≤ n.line := Nat.le_of_lt (Nat.lt_of_not_le hnp)
      simp only [insertByLine, if_neg hnp]
      simp only [sortedByLine, Bool.and_eq_true, decide_eq_true_eq]
      exact ⟨hmp, ih p hp hpn⟩

theorem insertByLine_sorted (n : PyNode) :
    ∀ l : List PyNode, sortedByLine l = true → sortedByLine (insertByLine n l) = true := by
  intro l h
  match l with
  | [] => simp [insertByLine, sortedByLine]
  | m :: rest =>
    by_cases hnm : n.line ≤ m.line
    · simp [insertByLine, hnm, sortedByLine, h]
    · have hmn : m.line ≤ n.line := Nat.le_of_lt (Nat.lt_of_not_le hnm)
      simp only [insertByLine, if_neg hnm]
      exact sorted_cons_insert n rest m h hmn

theorem sortByLine_sorted : ∀ l : List PyNode, sortedByLine (sortByLine l) = true := by
  intro l
  induction l with
  | nil => simp [sortByLine, sortedByLine]
  | cons n rest ih => exact insertByLine_sorted n _ ih

theorem insertByLine_length (n : PyNode) :
    ∀ l : List PyNode, (insertByLine n l).length = l.length + 1 := by
  intro l
  induction l with
  | nil => simp [insertByLine]
  | cons m rest ih =>
    by_cases hnm : n.line ≤ m.line
    · simp [insertByLine, hnm]
    · simp [insertByLine, hnm, ih]

theorem sortByLine_length : ∀ l : List PyNode, (sortByLine l).length = l.length := by
  intro l
  induction l with
  | nil => rfl
  | cons n rest ih => simp [sortByLine, insertByLine_length, ih]

theorem firstPass_flat_aux :
    ∀ (tests : List RawTest) (acc : List PyNode × List (String × List PyNode)),
      (∀ t ∈ tests, jsClsOpt t.cls = none) →
      tests.foldl firstPassStep acc = (acc.1 ++ tests.map rawToNode, acc.2) := by
  intro tests
  induction tests with
  | nil => intro acc _; simp
  | cons t rest ih =>
    intro acc h
    have ht : jsClsOpt t.cls = none := h t (by simp)
    have hstep : firstPassStep acc t = (acc.1 ++ [rawToNode t], acc.2) := by
      simp [firstPassStep, rawToNode, PyNode.cls, ht]
    rw [List.foldl_cons, hstep, ih _ (fun x hx => h x (by simp [hx]))]
    simp

theorem firstPass_flat (tests : List RawTest)
    (h : ∀ t ∈ tests, jsClsOpt t.cls = none) :
    firstPass tests = (tests.map rawToNode, []) := by
  rw [firstPass, firstPass_flat_aux tests ([], []) h]
  simp

/-- Counterexample to claim C4: raw entries delivering a class at line 1 and
its methods out of order (lines 10 then 5) produce a tree whose class-node
children list is not sorted by startLine (and the raw class entry is also
duplicated as a childless top-level node). -/
theorem processTestNodes_children_unsorted :
    topAndChildrenSorted (processTestNodes [exRawMethodB, exRawMethodA, exRawClass]) = false ∧
    (processTestNodes [exRawMethodB, exRawMethodA, exRawClass]).map
      (fun n => n.children.map PyNode.line) = [[], [10, 5]] := by
  exact ⟨by decide, by decide⟩

/-- Claim C4 as amended: the top-level entity list returned by
`processTestNodes` is always sorted by startLine ascending, and a file with N
independent non-nested same-kind declarations yields exactly N top-level
entities in ascending order; class children lists, however, keep the
parser's emission order and are not sorted. -/
theorem processTestNodes_topLevel_sorted :
    (∀ tests : List RawTest, sortedByLine (processTestNodes tests) = true) ∧
    (∀ (tests : List RawTest) (k : String),
      (∀ t ∈ tests, jsClsOpt t.cls = none) →
      (∀ t ∈ tests, jsOrOptStr t.typ "function" = k) →
      (processTestNodes tests).length = tests.length ∧
      sortedByLine (processTestNodes tests) = true) := by
  constructor
  · intro tests
    exact sortByLine_sorted _
  · intro tests k hflat _
    constructor
    · rw [processTestNodes, firstPass_flat tests hflat]
      simp [secondPass, sortByLine_length]
    · exact sortByLine_sorted _

/-- Witness for the amended C4: two flat function entries at lines 8 and 2
yield exactly two top-level entities, sorted ascending. -/
theorem processTestNodes_topLevel_sorted_witness :
    (∀ t ∈ [exRawFunB, exRawFunA], jsClsOpt t.cls = none) ∧
    (∀ t ∈ [exRawFunB, exRawFunA], jsOrOptStr t.typ "function" = "function") ∧
    (processTestNodes [exRawFunB, exRawFunA]).length = 2 ∧
    sortedByLine (processTestNodes [exRawFunB, exRawFunA]) = true :=
  ⟨by decide, by decide,
   (processTestNodes_topLevel_sorted.2 [exRawFunB, exRawFunA] "function"
     (by decide) (by decide)).1,
   (processTestNodes_topLevel_sorted.2 [exRawFunB, exRawFunA] "function"
     (by decide) (by decide)).2⟩

/-- Claim C6: when the structural parser yields zero entities (its failure
mode), the coordinator falls back to the pattern parser; the pattern parser
emits exactly one entity per line whose trimmed text matches a
`def test_*`, `class Test*` or `async def test_*` declaration, carrying the
1-based line number — as the loop-to-filterMap characterization and the
sample file show — and an unreadable file yields the empty list. -/
theorem parseTestFile_fallback_regex :
    (∀ (fileName : String) (raw : Option (List RawTest)) (content : Option String),
      parsePythonFile raw = [] → isTestFileName fileName = true →
      parseTestFile true fileName raw content = parseWithRegex content) ∧
    (∀ (i : Nat) (lines : List String),
      parseRegexLoop i lines =
        (List.enumFrom i lines).filterMap (fun p => matchLineNode p.1 p.2)) ∧
    parseWithRegex none = [] ∧
    parseWithRegex (some exSampleFile) =
      [PyNode.mk "test_add" 3 "function" none "test_add" false false [] none [],
       PyNode.mk "TestCalc" 5 "class" none "TestCalc" false false [] none [],
       PyNode.mk "test_divide" 6 "function" none "test_divide" false false [] none [],
       PyNode.mk "test_async" 7 "function" none "test_async" false true [] none []] := by
  refine ⟨?_, ?_, rfl, rfl⟩
  · intro fileName raw content h1 h2
    simp [parseTestFile, h1, h2]
  · intro i lines
    induction lines generalizing i with
    | nil => rfl
    | cons l rest ih =>
      cases hm : matchLineNode i l <;>
        simp [parseRegexLoop, hm, ih, List.enumFrom, List.filterMap_cons]

/-- Witness for C6: a failed structural parse on the sample test file falls
back to the regex result. -/
theorem parseTestFile_fallback_regex_witness :
    parsePythonFile none = [] ∧ isTestFileName "calc_test.py" = true ∧
    parseTestFile true "calc_test.py" none (some exSampleFile) =
      parseWithRegex (some exSampleFile) :=
  ⟨rfl, by decide,
   parseTestFile_fallback_regex.1 "calc_test.py" none (some exSampleFile) rfl (by decide)⟩

/-! ### Substring and first-replacement lemmas for the `::` separator -/

theorem hasSubstrL_append_right (p : List Char) :
    ∀ (x y : List Char), hasSubstrL p y = true → hasSubstrL p (x ++ y) = true := by
  intro x
  induction x with
  | nil => intro y h; simpa using h
  | cons c rest ih =>
    intro y h
    simp only [List.cons_append, hasSubstrL, Bool.or_eq_true]
    exact Or.inr (ih y h)

theorem hasSubstrL_sep_mid (b : List Char) :
    ∀ (y : List Char), hasSubstrL [':', ':'] (':' :: ':' :: b ++ y) = false → False := by
  intro y h
  simp [hasSubstrL, List.isPrefixOf] at h

theorem hasSubstrL_self_start (p y : List Char) (hp : p ≠ []) :
    hasSubstrL p (p ++ y) = true := by
  match p with
  | [] => exact absurd rfl hp
  | c :: rest =>
    simp only [List.cons_append, hasSubstrL, Bool.or_eq_true]
    left
    simp only [List.isPrefixOf_iff_prefix]
    exact ⟨y, by simp⟩

theorem getLast?_of_cons_ne (c : Char) (a2 : List Char)
    (h : (c :: a2).getLast? ≠ some ':') : a2.getLast? ≠ some ':' := by
  cases a2 with
  | nil => simp
  | cons d a3 =>
    rw [List.getLast?_cons_cons] at h
    exact h

theorem replaceFirstL_cons_neg (pat repl : List Char) (c : Char) (rest : List Char)
    (h : List.isPrefixOf pat (c :: rest) = false) :
    replaceFirstL pat repl (c :: rest) = c :: replaceFirstL pat repl rest := by
  rw [replaceFirstL]
  simp [h]

theorem replaceFirstL_sep :
    ∀ (a b repl : List Char),
      hasSubstrL [':', ':'] a = false → a.getLast? ≠ some ':' →
      replaceFirstL [':', ':'] repl (a ++ (':' :: ':' :: b)) = a ++ (repl ++ b) := by
  intro a
  induction a with
  | nil =>
    intro b repl _ _
    simp [replaceFirstL, List.isPrefixOf, List.drop]
  | cons c a2 ih =>
    intro b repl hsub hlast
    simp only [hasSubstrL, Bool.or_eq_false_iff] at hsub
    obtain ⟨hp, hsub2⟩ := hsub
    have hpre : List.isPrefixOf [':', ':'] (c :: (a2 ++ (':' :: ':' :: b))) = false := by
      cases a2 with
      | nil =>
        have hc : (':' == c) = false := by
          rw [beq_eq_false_iff_ne]
          intro hc
          exact hlast (by simp [← hc])
        simp [List.isPrefixOf, hc]
      | cons d a3 =>
        simp only [List.isPrefixOf, Bool.and_eq_false_iff] at hp ⊢
        rcases hp with hp | hp
        · exact Or.inl hp
        · rcases hp with hp | hp
          · exact Or.inr (Or.inl hp)
          · simp [List.isPrefixOf] at hp
    rw [List.cons_append, replaceFirstL_cons_neg _ _ _ _ hpre,
      ih b repl hsub2 (getLast?_of_cons_ne c a2 hlast)]
    rfl

/-- The `::` separator as character data. -/
theorem sep_data : ("::" : String).data = [':', ':'] := rfl

theorem string_data_append3 (a s b : String) :
    (a ++ s ++ b).data = a.data ++ (s.data ++ b.data) := by
  simp [String.data_append, List.append_assoc]

theorem replaceFirstS_sep (a b : String)
    (hsub : hasSubstrS "::" a = false) (hlast : a.data.getLast? ≠ some ':') :
    replaceFirstS (a ++ "::" ++ b) "::" " and " = a ++ " and " ++ b := by
  apply String.ext
  show replaceFirstL [':', ':'] (" and ").data (a ++ "::" ++ b).data =
    (a ++ " and " ++ b).data
  rw [string_data_append3, string_data_append3, sep_data]
  exact replaceFirstL_sep a.data b.data (" and ").data hsub hlast

theorem append_sep_ne_empty (a b : String) : a ++ "::" ++ b ≠ "" := by
  intro h
  have hd := congrArg String.data h
  rw [string_data_append3, sep_data] at hd
  simp at hd

theorem hasSubstrS_sep_mid (a b : String) : hasSubstrS "::" (a ++ "::" ++ b) = true := by
  show hasSubstrL (("::" : String).data) (a ++ "::" ++ b).data = true
  rw [string_data_append3, sep_data]
  exact hasSubstrL_append_right _ _ _ (hasSubstrL_self_start [':', ':'] b.data (by simp))

theorem hasSubstrS_append_right (p a b : String) (h : hasSubstrS p b = true) :
    hasSubstrS p (a ++ b) = true := by
  show hasSubstrL p.data (a ++ b).data = true
  rw [String.data_append]
  exact hasSubstrL_append_right _ _ _ h

theorem joinSpace_cons (a : String) (l : List String) (h : l ≠ []) :
    joinSpace (a :: l) = a ++ " " ++ joinSpace l := by
  match l with
  | [] => exact absurd rfl h
  | b :: rest => rfl

/-- Shared helper: for a selector written `a ++ "::" ++ b` whose first `::`
occurrence sits at the border of `a` and `b`, `buildPytestArgs` emits the
quoted file path and then `-k` with the first `::` replaced by ` and `. -/
theorem buildPytestArgs_sep_eq (win : Bool) (cfg : RunnerConfig) (fp a b : String)
    (opts : List String) (hsub : hasSubstrS "::" a = false)
    (hlast : a.data.getLast? ≠ some ':') :
    buildPytestArgs win cfg fp (some (a ++ "::" ++ b)) true opts =
      [quoteS win (normalizePathS win fp), "-k", quoteS win (a ++ " and " ++ b)] ++
        argsTail win cfg fp true opts := by
  simp [buildPytestArgs, nameSelectionArgs, quoterOf, append_sep_ne_empty a b,
    hasSubstrS_sep_mid a b, replaceFirstS_sep a b hsub hlast]

/-- Counterexample to claim C2: with the shipped default arguments `-v`, the
built command for the bare selector `test_add` on `calc_test.py` carries the
default arguments twice — once inside the command prefix and once appended —
and so differs from the spec's command with the defaults appearing exactly
once. -/
theorem buildPytestCommand_defaults_twice :
    buildPytestCommand false exCfg "calc_test.py" (some "test_add") [] =
      "pytest -v " ++ sq ++ "calc_test.py" ++ sq ++ " -k " ++ sq ++ "test_add" ++ sq ++ " -v" ∧
    specCommandForBareSelector false exCfg "calc_test.py" "test_add" =
      "pytest " ++ sq ++ "calc_test.py" ++ sq ++ " -k " ++ sq ++ "test_add" ++ sq ++ " -v" ∧
    buildPytestCommand false exCfg "calc_test.py" (some "test_add") [] ≠
      specCommandForBareSelector false exCfg "calc_test.py" "test_add" :=
  ⟨by decide, by decide, by decide⟩

/-- Claim C2 as amended: for a bare selector on a test file with no one-off
options and no discoverable config file, the command is the base executable,
then the configured default arguments (embedded in the command prefix), then
the quoted file path, then the `-k` expression, then the default arguments a
second time — they appear twice, not once, whenever they are non-empty. -/
theorem buildPytestCommand_order_with_defaults :
    ∀ (win : Bool) (cfg : RunnerConfig) (fp tn : String),
      joinSpace cfg.pytestArgs ≠ "" → hasSubstrS "::" tn = false → tn ≠ "" →
      cfg.configPathFor fp = "" →
      buildPytestArgs win cfg fp (some tn) true [] =
        [quoteS win (normalizePathS win fp), "-k", quoteS win tn] ++ cfg.pytestArgs ∧
      buildPytestCommand win cfg fp (some tn) [] =
        pytestBase cfg ++ " " ++ joinSpace cfg.pytestArgs ++ " " ++
          joinSpace ([quoteS win (normalizePathS win fp), "-k", quoteS win tn] ++
            cfg.pytestArgs) := by
  intro win cfg fp tn h1 h2 h3 h4
  have hargs : cfg.pytestArgs ≠ [] := by
    intro hh
    apply h1
    rw [hh]
    rfl
  have hie : cfg.pytestArgs.isEmpty = false := by
    cases hc : cfg.pytestArgs with
    | nil => exact absurd hc hargs
    | cons x xs => rfl
  have hlist : buildPytestArgs win cfg fp (some tn) true [] =
      [quoteS win (normalizePathS win fp), "-k", quoteS win tn] ++ cfg.pytestArgs := by
    simp [buildPytestArgs, nameSelectionArgs, argsTail, quoterOf, h2, h3, h4, hie]
  refine ⟨hlist, ?_⟩
  rw [buildPytestCommand, hlist, pytestCommandStr]
  simp only [h1, if_neg, ite_false]
  simp [String.append_assoc]

/-- Witness for the amended C2 at the shipped default configuration. -/
theorem buildPytestCommand_order_with_defaults_witness :
    joinSpace exCfg.pytestArgs ≠ "" ∧ hasSubstrS "::" "test_add" = false ∧
    ("test_add" : String) ≠ "" ∧ exCfg.configPathFor "calc_test.py" = "" ∧
    buildPytestCommand false exCfg "calc_test.py" (some "test_add") [] =
      pytestBase exCfg ++ " " ++ joinSpace exCfg.pytestArgs ++ " " ++
        joinSpace ([quoteS false (normalizePathS false "calc_test.py"), "-k",
          quoteS false "test_add"] ++ exCfg.pytestArgs) :=
  ⟨by decide, by decide, by decide, rfl,
   (buildPytestCommand_order_with_defaults false exCfg "calc_test.py" "test_add"
     (by decide) (by decide) (by decide) rfl).2⟩

/-- Claim C7: a selector containing the `::` separator yields a `-k`
expression joining the two parts with ` and ` (first occurrence replaced), a
bare selector is passed to `-k` as a single name, and the produced expression
for a method selector contains no path-style `::`. -/
theorem nameSelection_joins_with_and :
    (∀ (win : Bool) (cfg : RunnerConfig) (fp a b : String) (opts : List String),
      hasSubstrS "::" a = false → a.data.getLast? ≠ some ':' →
      buildPytestArgs win cfg fp (some (a ++ "::" ++ b)) true opts =
        [quoteS win (normalizePathS win fp), "-k", quoteS win (a ++ " and " ++ b)] ++
          argsTail win cfg fp true opts) ∧
    (∀ (win : Bool) (cfg : RunnerConfig) (fp s : String) (opts : List String),
      s ≠ "" → hasSubstrS "::" s = false →
      buildPytestArgs win cfg fp (some s) true opts =
        [quoteS win (normalizePathS win fp), "-k", quoteS win s] ++
          argsTail win cfg fp true opts) ∧
    replaceFirstS "TestCalc::test_divide" "::" " and " = "TestCalc and test_divide" ∧
    hasSubstrS "::" "TestCalc and test_divide" = false := by
  refine ⟨?_, ?_, by decide, by decide⟩
  · intro win cfg fp a b opts hsub hlast
    exact buildPytestArgs_sep_eq win cfg fp a b opts hsub hlast
  · intro win cfg fp s opts h1 h2
    simp [buildPytestArgs, nameSelectionArgs, quoterOf, h1, h2]

/-- Witness for C7 at the method selector `TestCalc::test_divide`. -/
theorem nameSelection_joins_with_and_witness :
    hasSubstrS "::" "TestCalc" = false ∧
    ("TestCalc" : String).data.getLast? ≠ some ':' ∧
    buildPytestArgs false exCfg "calc_test.py"
        (some ("TestCalc" ++ "::" ++ "test_divide")) true [] =
      [quoteS false (normalizePathS false "calc_test.py"), "-k",
        quoteS false ("TestCalc" ++ " and " ++ "test_divide")] ++
        argsTail false exCfg "calc_test.py" true [] :=
  ⟨by decide, by decide,
   nameSelection_joins_with_and.1 false exCfg "calc_test.py" "TestCalc" "test_divide" []
     (by decide) (by decide)⟩

/-- Claim C10: only the first `::` occurrence is replaced by ` and `: a
selector `a::b` where `b` still contains `::` keeps those later separators
verbatim inside the `-k` expression, as `A::B::C` mapping to `A and B::C`
shows. -/
theorem nameSelection_replaces_only_first_sep :
    (∀ (win : Bool) (cfg : RunnerConfig) (fp a b : String) (opts : List String),
      hasSubstrS "::" a = false → a.data.getLast? ≠ some ':' →
      hasSubstrS "::" b = true →
      buildPytestArgs win cfg fp (some (a ++ "::" ++ b)) true opts =
        [quoteS win (normalizePathS win fp), "-k", quoteS win (a ++ " and " ++ b)] ++
          argsTail win cfg fp true opts ∧
      hasSubstrS "::" (a ++ " and " ++ b) = true) ∧
    replaceFirstS "A::B::C" "::" " and " = "A and B::C" := by
  refine ⟨?_, by decide⟩
  intro win cfg fp a b opts h1 h2 h3
  exact ⟨buildPytestArgs_sep_eq win cfg fp a b opts h1 h2,
    hasSubstrS_append_right "::" (a ++ " and ") b h3⟩

/-- Witness for C10 at the selector `A::B::C`. -/
theorem nameSelection_replaces_only_first_sep_witness :
    hasSubstrS "::" "A" = false ∧ ("A" : String).data.getLast? ≠ some ':' ∧
    hasSubstrS "::" "B::C" = true ∧
    (buildPytestArgs false exCfg "t.py" (some ("A" ++ "::" ++ "B::C")) true [] =
      [quoteS false (normalizePathS false "t.py"), "-k",
        quoteS false ("A" ++ " and " ++ "B::C")] ++
        argsTail false exCfg "t.py" true [] ∧
      hasSubstrS "::" ("A" ++ " and " ++ "B::C") = true) :=
  ⟨by decide, by decide, by decide,
   nameSelection_replaces_only_first_sep.1 false exCfg "t.py" "A" "B::C" []
     (by decide) (by decide) (by decide)⟩

end Pytest
